import Mathlib

/-!
Verification of the ecash mint core in src/src/mint.rs (cashu-crab).

The Rust code is shallowly embedded: amounts (Rust Amount, u64 satoshi
values) become Nat, elliptic-curve points and keys become Nat, the
HashMap keys of a keyset become an association list, the HashSet of
spent secrets becomes a List String used as a set, and fallible Rust
functions returning Result become Except Error.  The external
blind-signature primitives of the dhke module are out of scope of the
repository and are passed in as an explicit record of functions.
Rust functions taking &mut self are modelled as functions returning
the updated Mint alongside the result; a Rust panic (out-of-bounds
index) is modelled as the value none of an Option-wrapped result.
-/

set_option autoImplicit false

namespace Cashu

/-- Modelled from the spec: the error kinds of §7 (the error module is not
in src/): amount-conservation violation, missing denomination key,
double-spend, split bucketing failure, and a propagated cryptographic
verification failure. -/
inductive Error where
  | Amount
  | AmountKey
  | TokenSpent
  | OutputOrdering
  | CryptoError
  deriving DecidableEq, Repr

/-- Modelled from the spec: the external blind-signature primitive (§6):
sign(privateKey, blindedPoint) → blindedSignature is deterministic and
total; verify(privateKey, signature, secret) → Ok | CryptoError is
modelled as a Boolean predicate, false standing for CryptoError. -/
structure Dhke where
  sign_message : Nat → Nat → Nat
  verify_message : Nat → Nat → String → Bool

/-- A signing keypair for one denomination (keyset module, out of src/). -/
structure KeyPair where
  secret_key : Nat
  public_key : Nat
  deriving DecidableEq, Repr

/-- A keyset: an id plus one keypair per supported denomination
(mint::KeySet; the keys HashMap keyed by u64 satoshi values becomes an
association list keyed by Nat). -/
structure KeySet where
  id : String
  keys : List (Nat × KeyPair)
  deriving DecidableEq, Repr

/-- A blinded message {amount, b} (types module). -/
structure BlindedMessage where
  amount : Nat
  b : Nat
  deriving DecidableEq, Repr

/-- A promise (blind signature) {amount, c, id} returned by the mint. -/
structure Promise where
  amount : Nat
  c : Nat
  id : String
  deriving DecidableEq, Repr

/-- A proof as consumed by verify_proof (types::Proof): amount, secret,
unblinded signature c, and optional keyset id. -/
structure Proof where
  amount : Nat
  secret : String
  c : Nat
  id : Option String
  deriving DecidableEq, Repr

/-- The Mint state of mint.rs: active keyset, inactive keysets keyed by
id, and the set of spent secrets. -/
structure Mint where
  active_keyset : KeySet
  inactive_keysets : List (String × KeySet)
  spent_secrets : List String
  deriving DecidableEq, Repr

/-- MintRequest (types module): the blinded messages to sign. -/
structure MintRequest where
  outputs : List BlindedMessage
  deriving DecidableEq, Repr

/-- PostMintResponse (types module): the promises issued. -/
structure PostMintResponse where
  promises : List Promise
  deriving DecidableEq, Repr

/-- SplitRequest (types module): target amount, input proofs, requested
blinded outputs. -/
structure SplitRequest where
  amount : Nat
  proofs : List Proof
  outputs : List BlindedMessage
  deriving DecidableEq, Repr

/-- SplitResponse (types module): fst holds the change-bucket promises,
snd the target-bucket promises. -/
structure SplitResponse where
  fst : List Promise
  snd : List Promise
  deriving DecidableEq, Repr

/-- MeltRequest (types module): input proofs, the invoice amount supplied
by the settlement collaborator, and optional blinded outputs for change. -/
structure MeltRequest where
  proofs : List Proof
  invoice_amount : Nat
  outputs : Option (List BlindedMessage)
  deriving DecidableEq, Repr

/-- MeltResponse (types module). -/
structure MeltResponse where
  paid : Bool
  preimage : Option String
  change : Option (List Promise)
  deriving DecidableEq, Repr

/-- CheckSpendableRequest (types module). -/
structure CheckSpendableRequest where
  proofs : List Proof
  deriving DecidableEq, Repr

/-- CheckSpendableResponse (types module). -/
structure CheckSpendableResponse where
  spendable : List Bool
  deriving DecidableEq, Repr

/-- Sum of the amounts of a list of promises. -/
def promisesTotal (ps : List Promise) : Nat :=
  (ps.map Promise.amount).sum

/-- Sum of the amounts of a list of proofs (types: proofs_amount). -/
def proofsTotal (ps : List Proof) : Nat :=
  (ps.map Proof.amount).sum

/-- Sum of the amounts of a list of blinded messages (types:
output_amount). -/
def messagesTotal (ms : List BlindedMessage) : Nat :=
  (ms.map BlindedMessage.amount).sum

/-- Modelled from the spec: SplitRequest.proofs_amount() sums the input
proofs' amounts. -/
def SplitRequest.proofs_amount (r : SplitRequest) : Nat :=
  proofsTotal r.proofs

/-- Modelled from the spec: SplitRequest.output_amount() sums the
requested outputs' amounts. -/
def SplitRequest.output_amount (r : SplitRequest) : Nat :=
  messagesTotal r.outputs

/-- Modelled from the spec: SplitResponse.target_amount() is the total of
the target bucket (snd). -/
def SplitResponse.target_amount (r : SplitResponse) : Nat :=
  promisesTotal r.snd

/-- Modelled from the spec: the change-bucket total of a split response
(fst). -/
def SplitResponse.change_amount (r : SplitResponse) : Nat :=
  promisesTotal r.fst

/-- Modelled from the spec: MeltRequest.proofs_amount() sums the input
proofs' amounts. -/
def MeltRequest.proofs_amount (r : MeltRequest) : Nat :=
  proofsTotal r.proofs

/-- Modelled from the spec: Amount.split() decomposes an amount into an
ordered sequence of strictly-decreasing powers of two summing exactly to
the amount (13 yields [8, 4, 1], 0 yields []). -/
def amountSplit (n : Nat) : List Nat :=
  (List.range (n + 1)).reverse.filterMap
    (fun i => if n.testBit i then some (2 ^ i) else none)

/-- Mint::blind_sign: look up the active keyset's keypair for the
message's amount (AmountKey if absent) and sign the blinded point. -/
def Mint.blind_sign (dh : Dhke) (m : Mint) (bm : BlindedMessage) :
    Except Error Promise :=
  match m.active_keyset.keys.lookup bm.amount with
  | none => .error .AmountKey
  | some key_pair =>
    .ok { amount := bm.amount
          c := dh.sign_message key_pair.secret_key bm.b
          id := m.active_keyset.id }

/-- The signing loop of Mint::process_mint_request: sign each blinded
message in order, aborting at the first error. -/
def Mint.signAll (dh : Dhke) (m : Mint) :
    List BlindedMessage → Except Error (List Promise)
  | [] => .ok []
  | bm :: rest => do
    let p ← m.blind_sign dh bm
    let ps ← Mint.signAll dh m rest
    .ok (p :: ps)

/-- Mint::process_mint_request: sign every output; any failure aborts the
whole batch.  The Rust method takes &mut self but never mutates. -/
def Mint.process_mint_request (dh : Dhke) (m : Mint) (req : MintRequest) :
    Except Error PostMintResponse := do
  let promises ← Mint.signAll dh m req.outputs
  .ok { promises := promises }

/-- The bucketing loop of Mint::create_split_response: sign each output
in order; while the running target total plus the new amount does not
exceed the requested amount, the signed output goes to the target
bucket, otherwise to the change bucket. -/
def Mint.splitLoop (dh : Dhke) (m : Mint) (amount : Nat) :
    List BlindedMessage → Nat → Nat → List Promise → List Promise →
    Except Error (Nat × Nat × List Promise × List Promise)
  | [], target_total, change_total, target, change =>
    .ok (target_total, change_total, target, change)
  | o :: rest, target_total, change_total, target, change => do
    let signed ← m.blind_sign dh o
    if target_total + signed.amount ≤ amount then
      Mint.splitLoop dh m amount rest (target_total + signed.amount)
        change_total (target ++ [signed]) change
    else
      Mint.splitLoop dh m amount rest target_total
        (change_total + signed.amount) target (change ++ [signed])

/-- Mint::create_split_response: run the bucketing pass and package the
change bucket as fst, the target bucket as snd. -/
def Mint.create_split_response (dh : Dhke) (m : Mint) (amount : Nat)
    (outputs : List BlindedMessage) : Except Error SplitResponse := do
  let (_, _, target, change) ← Mint.splitLoop dh m amount outputs 0 0 [] []
  .ok { fst := change, snd := target }

/-- The keyset resolution of Mint::verify_proof: with no id, the active
keyset; with an id, the inactive keyset registered under that id if any,
otherwise the active keyset. -/
def Mint.resolveKeyset (m : Mint) (id? : Option String) : KeySet :=
  match id? with
  | none => m.active_keyset
  | some i =>
    match m.inactive_keysets.lookup i with
    | some k => k
    | none => m.active_keyset

/-- Mint::verify_proof: TokenSpent if the secret is already spent;
resolve the keyset from the proof's optional id; AmountKey if the
resolved keyset has no keypair for the proof's amount; then run the
cryptographic verification; on success return the secret.  Takes &self:
side-effect-free. -/
def Mint.verify_proof (dh : Dhke) (m : Mint) (p : Proof) :
    Except Error String :=
  if m.spent_secrets.contains p.secret then .error .TokenSpent
  else
    let keyset := m.resolveKeyset p.id
    match keyset.keys.lookup p.amount with
    | none => .error .AmountKey
    | some keypair =>
      if dh.verify_message keypair.secret_key p.c p.secret then .ok p.secret
      else .error .CryptoError

/-- The verification loop shared by split and melt: verify each proof in
order, collecting the secrets, aborting at the first error. -/
def Mint.verifyAll (dh : Dhke) (m : Mint) :
    List Proof → Except Error (List String)
  | [] => .ok []
  | p :: rest => do
    let s ← m.verify_proof dh p
    let ss ← Mint.verifyAll dh m rest
    .ok (s :: ss)

/-- Mint::process_split_request: the three amount checks, the
verification loop, the bucketing pass, one retry on the reversed
outputs, the OutputOrdering check, and only then the insertion of the
collected secrets into spent_secrets. -/
def Mint.process_split_request (dh : Dhke) (m : Mint) (r : SplitRequest) :
    Except Error SplitResponse × Mint :=
  if r.proofs_amount < r.amount then (.error .Amount, m)
  else
    if r.output_amount < r.amount then (.error .Amount, m)
    else if r.proofs_amount ≠ r.output_amount then (.error .Amount, m)
    else
      match Mint.verifyAll dh m r.proofs with
      | .error e => (.error e, m)
      | .ok secrets =>
        match m.create_split_response dh r.amount r.outputs with
        | .error e => (.error e, m)
        | .ok resp0 =>
          match (if resp0.target_amount ≠ r.amount then
                   m.create_split_response dh r.amount r.outputs.reverse
                 else .ok resp0) with
          | .error e => (.error e, m)
          | .ok resp =>
            if resp.target_amount ≠ r.amount then (.error .OutputOrdering, m)
            else
              (.ok resp,
               { m with spent_secrets :=
                   secrets.foldl (fun acc s => acc.insert s) m.spent_secrets })

/-- Mint::check_spendable: for each proof, in order, report membership of
its secret in spent_secrets.  Takes &self and performs no cryptographic
verification. -/
def Mint.check_spendable (m : Mint) (req : CheckSpendableRequest) :
    Except Error CheckSpendableResponse :=
  .ok { spendable := req.proofs.map (fun p => m.spent_secrets.contains p.secret) }

/-- Mint::verify_melt_request: Amount if the proofs total is below the
invoice amount, then verify every proof.  The Rust method takes
&mut self but never mutates, which the returned state makes explicit. -/
def Mint.verify_melt_request (dh : Dhke) (m : Mint) (r : MeltRequest) :
    Except Error Unit × Mint :=
  if r.proofs_amount < r.invoice_amount then (.error .Amount, m)
  else
    match Mint.verifyAll dh m r.proofs with
    | .error e => (.error e, m)
    | .ok _ => (.ok (), m)

/-- The change loop of Mint::process_melt_request: for each computed
denomination, take the positionally corresponding caller output
(outputs[i]; none models the Rust out-of-bounds panic), override its
amount, and blind-sign it. -/
def Mint.meltChangeLoop (dh : Dhke) (m : Mint)
    (outputs : List BlindedMessage) :
    List Nat → Nat → List Promise → Option (Except Error (List Promise))
  | [], _, change => some (.ok change)
  | a :: rest, i, change =>
    match outputs[i]? with
    | none => none
    | some msg =>
      match m.blind_sign dh { msg with amount := a } with
      | .error e => some (.error e)
      | .ok signature =>
        Mint.meltChangeLoop dh m outputs rest (i + 1) (change ++ [signature])

/-- Mint::process_melt_request: the secrets vector is freshly created
empty (Vec::with_capacity) and the insertion loop over it is a no-op,
exactly as in the source; then the change target is decomposed and, when
outputs are supplied, signed positionally.  The outer Option is none
when the Rust code would panic on an out-of-bounds index. -/
def Mint.process_melt_request (dh : Dhke) (m : Mint) (r : MeltRequest)
    (preimage : String) (total_spent : Nat) :
    Option (Except Error MeltResponse × Mint) :=
  let secrets : List String := []
  let m1 : Mint :=
    { m with spent_secrets :=
        secrets.foldl (fun acc s => acc.insert s) m.spent_secrets }
  let change_target := r.proofs_amount - total_spent
  let amounts := amountSplit change_target
  match r.outputs with
  | none =>
    some (.ok { paid := true, preimage := some preimage, change := some [] },
          m1)
  | some outputs =>
    match Mint.meltChangeLoop dh m1 outputs amounts 0 [] with
    | none => none
    | some (.error e) => some (.error e, m1)
    | some (.ok change) =>
      some (.ok { paid := true, preimage := some preimage,
                  change := some change },
            m1)

/-! Concrete test fixtures used to instantiate the theorems below. -/

/-- A concrete instantiation of the external blind-signature primitive. -/
def exDhke : Dhke :=
  { sign_message := fun k b => k * 1000 + b
    verify_message := fun _ _ _ => true }

/-- A concrete keypair for denomination tests. -/
def exKeyPair (n : Nat) : KeyPair := { secret_key := n, public_key := n + 100 }

/-- A concrete inactive keyset registered under id "old". -/
def exInactive : KeySet := { id := "old", keys := [(1, exKeyPair 11)] }

/-- A concrete active keyset with keys for denominations 1, 2 and 3. -/
def exKeySet : KeySet :=
  { id := "ks0", keys := [(1, exKeyPair 1), (2, exKeyPair 2), (3, exKeyPair 3)] }

/-- A concrete mint with an empty spend registry. -/
def exMint : Mint :=
  { active_keyset := exKeySet
    inactive_keysets := [("old", exInactive)]
    spent_secrets := [] }

/-- A split request that succeeds: one input proof of amount 2, two
outputs of amount 1 each, target amount 1. -/
def exSplitReq2 : SplitRequest :=
  { amount := 1
    proofs := [{ amount := 2, secret := "s", c := 0, id := none }]
    outputs := [{ amount := 1, b := 0 }, { amount := 1, b := 1 }] }

/-- The split response produced for exSplitReq2. -/
def exResp2 : SplitResponse :=
  { fst := [{ amount := 1, c := 1001, id := "ks0" }]
    snd := [{ amount := 1, c := 1000, id := "ks0" }] }

/-- The mint state after the successful split of exSplitReq2. -/
def exMintAfter2 : Mint :=
  { active_keyset := exKeySet
    inactive_keysets := [("old", exInactive)]
    spent_secrets := ["s"] }

/-- A split request violating the first amount check: the proofs total 1
is below the requested amount 5. -/
def exSplitReqBad : SplitRequest :=
  { amount := 5
    proofs := [{ amount := 1, secret := "t", c := 0, id := none }]
    outputs := [] }

/-- A split request whose first greedy pass misses the target but whose
reversed pass hits it exactly: amount 2 with outputs [1, 2]. -/
def exSplitReq5 : SplitRequest :=
  { amount := 2
    proofs := [{ amount := 3, secret := "s5", c := 0, id := none }]
    outputs := [{ amount := 1, b := 0 }, { amount := 2, b := 1 }] }

/-- The first-pass response for exSplitReq5 (target bucket total 1 ≠ 2). -/
def exResp05 : SplitResponse :=
  { fst := [{ amount := 2, c := 2001, id := "ks0" }]
    snd := [{ amount := 1, c := 1000, id := "ks0" }] }

/-- The reversed-pass response for exSplitReq5 (target bucket total 2). -/
def exResp5 : SplitResponse :=
  { fst := [{ amount := 1, c := 1000, id := "ks0" }]
    snd := [{ amount := 2, c := 2001, id := "ks0" }] }

/-- A mint request containing an unsupported denomination (5). -/
def exMintReqBad : MintRequest := { outputs := [{ amount := 5, b := 0 }] }

/-- A mint request with only supported denominations. -/
def exMintReqGood : MintRequest :=
  { outputs := [{ amount := 1, b := 0 }, { amount := 2, b := 1 }] }

/-- A melt request without change outputs: one proof of amount 3,
invoice amount 1. -/
def exMeltReqNoOut : MeltRequest :=
  { proofs := [{ amount := 3, secret := "m1", c := 0, id := none }]
    invoice_amount := 1
    outputs := none }

/-- A melt request whose single supplied output is shorter than the two
change denominations of change target 3 (decomposed as [2, 1]). -/
def exMeltReqShort : MeltRequest :=
  { proofs := [{ amount := 3, secret := "m2", c := 0, id := none }]
    invoice_amount := 1
    outputs := some [{ amount := 1, b := 0 }] }

/-- A melt request that settles exactly (total spent 1, no change). -/
def exMeltReqExact : MeltRequest :=
  { proofs := [{ amount := 1, secret := "m3", c := 0, id := none }]
    invoice_amount := 1
    outputs := none }

/-- A check-spendable request over one spent and one unspent secret. -/
def exCheckReq : CheckSpendableRequest :=
  { proofs := [{ amount := 1, secret := "s", c := 0, id := none },
               { amount := 1, secret := "u", c := 0, id := none }] }

end Cashu

namespace Cashu

/-- Claim C6: processSplit fails with error Amount, before any proof
verification or signing (for every dhke primitive and every mint state),
whenever the proofs total is below the requested amount, the outputs
total is below the requested amount, or the two totals differ. -/
theorem C6_split_amount_checks (dh : Dhke) (m : Mint) (r : SplitRequest)
    (h : r.proofs_amount < r.amount ∨ r.output_amount < r.amount ∨
      r.proofs_amount ≠ r.output_amount) :
    Mint.process_split_request dh m r = (.error .Amount, m) := by
  unfold Mint.process_split_request
  split_ifs with h1 h2 h3
  · rfl
  · rfl
  · rfl
  · exfalso
    rcases h with h | h | h
    · exact h1 h
    · exact h2 h
    · exact h3 h

theorem C6_witness :
    Mint.process_split_request exDhke exMint exSplitReqBad =
      (.error .Amount, exMint) :=
  C6_split_amount_checks exDhke exMint exSplitReqBad (Or.inl (by decide))

/-- Claim C8: in verifyProof, keyset resolution uses the keyset named by
the proof's id when that id is present and known (registered inactive,
or equal to the active keyset's id), and the active keyset when the id
is absent. -/
theorem C8_keyset_resolution (m : Mint) :
    m.resolveKeyset none = m.active_keyset
    ∧ (∀ i k, m.inactive_keysets.lookup i = some k →
        m.resolveKeyset (some i) = k)
    ∧ (∀ i, i = m.active_keyset.id → m.inactive_keysets.lookup i = none →
        m.resolveKeyset (some i) = m.active_keyset) := by
  refine ⟨rfl, ?_, ?_⟩
  · intro i k hk
    simp [Mint.resolveKeyset, hk]
  · intro i _ hnone
    simp [Mint.resolveKeyset, hnone]

theorem C8_witness :
    exMint.resolveKeyset (some "old") = exInactive
    ∧ exMint.resolveKeyset (some "ks0") = exMint.active_keyset :=
  ⟨(C8_keyset_resolution exMint).2.1 "old" exInactive (by decide),
   (C8_keyset_resolution exMint).2.2 "ks0" (by decide) (by decide)⟩

/-- Claim C9: checkSpendable returns one boolean per input proof, in
input order, equal to the membership of that proof's secret in the spend
registry; it consults no cryptographic primitive and returns no changed
mint state. -/
theorem C9_check_spendable_membership (m : Mint)
    (req : CheckSpendableRequest) :
    ∃ resp, m.check_spendable req = .ok resp
      ∧ resp.spendable.length = req.proofs.length
      ∧ ∀ i : Nat, resp.spendable[i]? =
          (req.proofs[i]?).map (fun p => m.spent_secrets.contains p.secret) := by
  refine ⟨_, rfl, by simp [Mint.check_spendable], ?_⟩
  intro i
  simp [Mint.check_spendable, List.getElem?_map]

theorem C9_witness :
    ∃ resp, exMintAfter2.check_spendable exCheckReq = .ok resp
      ∧ resp.spendable.length = exCheckReq.proofs.length
      ∧ ∀ i : Nat, resp.spendable[i]? =
          (exCheckReq.proofs[i]?).map
            (fun p => exMintAfter2.spent_secrets.contains p.secret) :=
  C9_check_spendable_membership exMintAfter2 exCheckReq

/-- Claim C10: a melt request without outputs succeeds with paid = true
and an empty change list, whatever the change target, leaving the mint
state unchanged. -/
theorem C10_melt_without_outputs (dh : Dhke) (m : Mint) (r : MeltRequest)
    (preimage : String) (total_spent : Nat) (h : r.outputs = none) :
    Mint.process_melt_request dh m r preimage total_spent =
      some (.ok { paid := true, preimage := some preimage,
                  change := some [] }, m) := by
  simp [Mint.process_melt_request, h]

theorem C10_witness :
    0 < exMeltReqNoOut.proofs_amount - 1
    ∧ Mint.process_melt_request exDhke exMint exMeltReqNoOut "pre" 1 =
        some (.ok { paid := true, preimage := some "pre",
                    change := some [] }, exMint) :=
  ⟨by decide,
   C10_melt_without_outputs exDhke exMint exMeltReqNoOut "pre" 1 rfl⟩

/-- Claim C4 (counter-evidence): on a melt request whose single supplied
output is shorter than the two change denominations, the code indexes
outputs out of bounds — modelled as none, the Rust panic — instead of
failing with an Amount-class error. -/
theorem C4_melt_change_out_of_bounds :
    Mint.process_melt_request exDhke exMint exMeltReqShort "pre" 0 = none
    ∧ amountSplit (exMeltReqShort.proofs_amount - 0) = [2, 1] :=
  ⟨rfl, rfl⟩

/-- Claim C1 (counter-evidence): a melt request passes verification,
processMelt succeeds, yet the consumed proof's secret is not inserted
into the spend registry — the state comes back unchanged — and a
subsequent verification of the same proof succeeds instead of failing
with TokenSpent. -/
theorem C1_melt_secret_not_marked :
    (Mint.verify_melt_request exDhke exMint exMeltReqExact).1 = .ok ()
    ∧ Mint.process_melt_request exDhke exMint exMeltReqExact "pre" 1 =
        some (.ok { paid := true, preimage := some "pre",
                    change := some [] }, exMint)
    ∧ exMint.spent_secrets.contains "m3" = false
    ∧ Mint.verify_proof exDhke exMint
        { amount := 1, secret := "m3", c := 0, id := none } = .ok "m3" :=
  ⟨rfl, rfl, rfl, rfl⟩

end Cashu

namespace Cashu

/-- Bind on Except propagates an error unchanged. -/
@[simp] theorem error_bind {e a b : Type} (x : e) (f : a → Except e b) :
    (Except.error x >>= f : Except e b) = Except.error x := rfl

/-- Bind on Except applies the continuation to a success value. -/
@[simp] theorem ok_bind {e a b : Type} (x : a) (f : a → Except e b) :
    (Except.ok x >>= f : Except e b) = f x := rfl

/-- Claim C3: any error from processSplit leaves the mint state
unchanged, and verifyMelt never changes the mint state at all:
verification is side-effect-free and secrets are only inserted after all
checks succeed. -/
theorem C3_error_leaves_state_unchanged (dh : Dhke) (m : Mint)
    (r : SplitRequest) (mr : MeltRequest) :
    (∀ e, (Mint.process_split_request dh m r).1 = .error e →
      (Mint.process_split_request dh m r).2 = m)
    ∧ (Mint.verify_melt_request dh m mr).2 = m := by
  constructor
  · intro e he
    unfold Mint.process_split_request at he ⊢
    split_ifs at he ⊢ <;> try rfl
    cases hv : Mint.verifyAll dh m r.proofs with
    | error e1 => simp [hv]
    | ok secrets =>
      cases hc : Mint.create_split_response dh m r.amount r.outputs with
      | error e1 => simp [hv, hc]
      | ok resp0 =>
        by_cases hne : resp0.target_amount ≠ r.amount
        · cases hc2 : Mint.create_split_response dh m r.amount r.outputs.reverse with
          | error e1 => simp [hv, hc, hne, hc2]
          | ok resp1 =>
            by_cases hne2 : resp1.target_amount ≠ r.amount
            · simp [hv, hc, hne, hc2, hne2]
            · simp [hv, hc, hne, hc2, hne2] at he
        · simp [hv, hc, hne] at he
  · unfold Mint.verify_melt_request
    split_ifs
    · rfl
    · cases hv : Mint.verifyAll dh m mr.proofs <;> simp [hv]

theorem C3_witness :
    (Mint.process_split_request exDhke exMint exSplitReqBad).2 = exMint
    ∧ (Mint.verify_melt_request exDhke exMint exMeltReqExact).2 = exMint :=
  ⟨(C3_error_leaves_state_unchanged exDhke exMint exSplitReqBad
      exMeltReqExact).1 .Amount rfl,
   (C3_error_leaves_state_unchanged exDhke exMint exSplitReqBad
      exMeltReqExact).2⟩

/-- If some blinded message in the list has no keypair in the active
keyset, the signing loop fails with AmountKey. -/
theorem signAll_missing_key (dh : Dhke) (m : Mint)
    (l : List BlindedMessage)
    (h : ∃ bm ∈ l, m.active_keyset.keys.lookup bm.amount = none) :
    Mint.signAll dh m l = .error .AmountKey := by
  induction l with
  | nil => simp at h
  | cons a l ih =>
    rcases h with ⟨bm, hmem, hnone⟩
    rcases List.mem_cons.mp hmem with rfl | hmem2
    · simp [Mint.signAll, Mint.blind_sign, hnone]
    · cases hl : m.active_keyset.keys.lookup a.amount with
      | none => simp [Mint.signAll, Mint.blind_sign, hl]
      | some kp =>
        simp [Mint.signAll, Mint.blind_sign, hl, ih ⟨bm, hmem2, hnone⟩]

/-- If every blinded message has a keypair, the signing loop succeeds
and produces, in order, one promise per message with matching amount and
the active keyset's id. -/
theorem signAll_all_keys (dh : Dhke) (m : Mint) (l : List BlindedMessage)
    (h : ∀ bm ∈ l, (m.active_keyset.keys.lookup bm.amount).isSome) :
    ∃ ps, Mint.signAll dh m l = .ok ps
      ∧ List.Forall₂ (fun bm p => p.amount = bm.amount
          ∧ p.id = m.active_keyset.id) l ps := by
  induction l with
  | nil => exact ⟨[], rfl, List.Forall₂.nil⟩
  | cons a l ih =>
    have ha := h a (List.mem_cons_self a l)
    rcases Option.isSome_iff_exists.mp ha with ⟨kp, hkp⟩
    rcases ih (fun bm hm => h bm (List.mem_cons_of_mem a hm)) with
      ⟨ps, hps, hall⟩
    refine ⟨{ amount := a.amount, c := dh.sign_message kp.secret_key a.b,
              id := m.active_keyset.id } :: ps, ?_, ?_⟩
    · simp [Mint.signAll, Mint.blind_sign, hkp, hps]
    · exact List.Forall₂.cons ⟨rfl, rfl⟩ hall

/-- Claim C7: processMint fails with AmountKey, issuing nothing, as soon
as one blinded message's amount has no keypair in the active keyset;
otherwise it returns one promise per blinded message, in input order,
with the message's amount and the active keyset's id. -/
theorem C7_mint_batch (dh : Dhke) (m : Mint) (req : MintRequest) :
    ((∃ bm ∈ req.outputs, m.active_keyset.keys.lookup bm.amount = none) →
      Mint.process_mint_request dh m req = .error .AmountKey)
    ∧ ((∀ bm ∈ req.outputs, (m.active_keyset.keys.lookup bm.amount).isSome) →
      ∃ resp, Mint.process_mint_request dh m req = .ok resp
        ∧ List.Forall₂ (fun bm p => p.amount = bm.amount
            ∧ p.id = m.active_keyset.id) req.outputs resp.promises) := by
  constructor
  · intro h
    simp [Mint.process_mint_request, signAll_missing_key dh m _ h]
  · intro h
    rcases signAll_all_keys dh m req.outputs h with ⟨ps, hps, hall⟩
    exact ⟨⟨ps⟩, by simp [Mint.process_mint_request, hps], hall⟩

theorem C7_witness :
    Mint.process_mint_request exDhke exMint exMintReqBad = .error .AmountKey
    ∧ ∃ resp, Mint.process_mint_request exDhke exMint exMintReqGood = .ok resp
        ∧ List.Forall₂ (fun bm p => p.amount = bm.amount
            ∧ p.id = exMint.active_keyset.id)
          exMintReqGood.outputs resp.promises :=
  ⟨(C7_mint_batch exDhke exMint exMintReqBad).1
      ⟨{ amount := 5, b := 0 }, by decide, by decide⟩,
   (C7_mint_batch exDhke exMint exMintReqGood).2 (by decide)⟩

end Cashu

namespace Cashu

/-- The total amount of an appended promise list. -/
theorem promisesTotal_append (ps qs : List Promise) :
    promisesTotal (ps ++ qs) = promisesTotal ps + promisesTotal qs := by
  simp [promisesTotal]

/-- Invariant of the bucketing loop: on success the two running totals
absorb exactly the amounts of the traversed outputs, and each running
total tracks the total of its bucket. -/
theorem splitLoop_invariant (dh : Dhke) (m : Mint) (amount : Nat)
    (outs : List BlindedMessage) :
    ∀ (tt ct : Nat) (tg ch : List Promise) (tt2 ct2 : Nat)
      (tg2 ch2 : List Promise),
      Mint.splitLoop dh m amount outs tt ct tg ch = .ok (tt2, ct2, tg2, ch2) →
      tt2 + ct2 = tt + ct + messagesTotal outs
      ∧ (promisesTotal tg = tt → promisesTotal tg2 = tt2)
      ∧ (promisesTotal ch = ct → promisesTotal ch2 = ct2) := by
  induction outs with
  | nil =>
    intro tt ct tg ch tt2 ct2 tg2 ch2 h
    simp [Mint.splitLoop] at h
    obtain ⟨h1, h2, h3, h4⟩ := h
    subst h1; subst h2; subst h3; subst h4
    simp [messagesTotal]
  | cons o rest ih =>
    intro tt ct tg ch tt2 ct2 tg2 ch2 h
    cases hl : m.active_keyset.keys.lookup o.amount with
    | none => simp [Mint.splitLoop, Mint.blind_sign, hl] at h
    | some kp =>
      simp only [Mint.splitLoop, Mint.blind_sign, hl, ok_bind] at h
      by_cases hle : tt + o.amount ≤ amount
      · rw [if_pos hle] at h
        obtain ⟨e1, e2, e3⟩ := ih _ _ _ _ _ _ _ _ h
        refine ⟨?_, ?_, e3⟩
        · simp only [messagesTotal, List.map_cons, List.sum_cons] at e1 ⊢
          omega
        · intro htg
          refine e2 ?_
          rw [promisesTotal_append, htg]
          simp [promisesTotal]
      · rw [if_neg hle] at h
        obtain ⟨e1, e2, e3⟩ := ih _ _ _ _ _ _ _ _ h
        refine ⟨?_, e2, ?_⟩
        · simp only [messagesTotal, List.map_cons, List.sum_cons] at e1 ⊢
          omega
        · intro hch
          refine e3 ?_
          rw [promisesTotal_append, hch]
          simp [promisesTotal]

/-- On success, a bucketing pass conserves value: the target total plus
the change total equals the total of the outputs signed. -/
theorem create_split_sums (dh : Dhke) (m : Mint) (amount : Nat)
    (outputs : List BlindedMessage) (resp : SplitResponse)
    (h : Mint.create_split_response dh m amount outputs = .ok resp) :
    resp.target_amount + resp.change_amount = messagesTotal outputs := by
  unfold Mint.create_split_response at h
  cases hsl : Mint.splitLoop dh m amount outputs 0 0 [] [] with
  | error e => rw [hsl] at h; simp at h
  | ok q =>
    obtain ⟨tt2, ct2, tg2, ch2⟩ := q
    rw [hsl] at h
    simp only [ok_bind] at h
    obtain ⟨e1, e2, e3⟩ :=
      splitLoop_invariant dh m amount outputs 0 0 [] [] tt2 ct2 tg2 ch2 hsl
    have htg : promisesTotal tg2 = tt2 := e2 rfl
    have hch : promisesTotal ch2 = ct2 := e3 rfl
    cases h
    simp [SplitResponse.target_amount, SplitResponse.change_amount,
      htg, hch]
    omega

/-- Claim C2: when processSplit succeeds, the signed promises (target
bucket plus change bucket) total the requested outputs' amounts, which
equal the input proofs' amounts, and the target bucket totals exactly
the requested amount. -/
theorem C2_split_conservation (dh : Dhke) (m : Mint) (r : SplitRequest)
    (resp : SplitResponse) (m2 : Mint)
    (h : Mint.process_split_request dh m r = (.ok resp, m2)) :
    resp.target_amount + resp.change_amount = r.output_amount
    ∧ resp.target_amount + resp.change_amount = r.proofs_amount
    ∧ resp.target_amount = r.amount := by
  unfold Mint.process_split_request at h
  split_ifs at h with h1 h2 h3
  · simp at h
  · simp at h
  · simp at h
  · have heq : r.proofs_amount = r.output_amount := by
      by_contra hc
      exact h3 hc
    cases hv : Mint.verifyAll dh m r.proofs with
    | error e => rw [hv] at h; simp at h
    | ok secrets =>
      rw [hv] at h
      simp only [] at h
      cases hc : Mint.create_split_response dh m r.amount r.outputs with
      | error e => rw [hc] at h; simp at h
      | ok resp0 =>
        rw [hc] at h
        simp only [] at h
        by_cases hne : resp0.target_amount ≠ r.amount
        · rw [if_pos hne] at h
          cases hc2 : Mint.create_split_response dh m r.amount
              r.outputs.reverse with
          | error e => rw [hc2] at h; simp at h
          | ok resp1 =>
            rw [hc2] at h
            simp only [] at h
            by_cases hne2 : resp1.target_amount ≠ r.amount
            · rw [if_pos hne2] at h; simp at h
            · rw [if_neg hne2] at h
              push_neg at hne2
              have hr : resp1 = resp := by
                have := congrArg Prod.fst h
                simpa using this
              subst hr
              have hsum := create_split_sums dh m r.amount
                r.outputs.reverse resp1 hc2
              have hrev : messagesTotal r.outputs.reverse =
                  messagesTotal r.outputs := by
                simp [messagesTotal, List.sum_reverse]
              refine ⟨?_, ?_, hne2⟩
              · rw [hsum, hrev]; rfl
              · rw [hsum, hrev, heq]; rfl
        · rw [if_neg hne] at h
          simp only [] at h
          push_neg at hne
          by_cases hne2 : resp0.target_amount ≠ r.amount
          · exact absurd hne hne2
          · rw [if_neg hne2] at h
            have hr : resp0 = resp := by
              have := congrArg Prod.fst h
              simpa using this
            subst hr
            have hsum := create_split_sums dh m r.amount r.outputs resp0 hc
            refine ⟨?_, ?_, hne⟩
            · rw [hsum]; rfl
            · rw [hsum, heq]; rfl

theorem C2_witness :
    exResp2.target_amount + exResp2.change_amount = exSplitReq2.output_amount
    ∧ exResp2.target_amount + exResp2.change_amount = exSplitReq2.proofs_amount
    ∧ exResp2.target_amount = exSplitReq2.amount :=
  C2_split_conservation exDhke exMint exSplitReq2 exResp2 exMintAfter2 rfl

/-- Claim C5: when the amount checks and the proof verifications pass,
the first bucketing pass completes but misses the target, and the pass
over the reversed outputs completes, then processSplit returns the
reversed-pass response when it hits the target exactly and fails with
OutputOrdering otherwise — the bucketing is retried exactly once, on the
reversed outputs. -/
theorem C5_split_retry_reversed (dh : Dhke) (m : Mint) (r : SplitRequest)
    (secrets : List String) (resp0 resp1 : SplitResponse)
    (h1 : ¬ r.proofs_amount < r.amount)
    (h2 : ¬ r.output_amount < r.amount)
    (h3 : r.proofs_amount = r.output_amount)
    (hv : Mint.verifyAll dh m r.proofs = .ok secrets)
    (hc : Mint.create_split_response dh m r.amount r.outputs = .ok resp0)
    (hne : resp0.target_amount ≠ r.amount)
    (hc2 : Mint.create_split_response dh m r.amount r.outputs.reverse =
      .ok resp1) :
    (Mint.process_split_request dh m r).1 =
      if resp1.target_amount = r.amount then .ok resp1
      else .error .OutputOrdering := by
  unfold Mint.process_split_request
  rw [if_neg h1, if_neg h2, if_neg (by simpa using h3), hv]
  simp only [] 
  rw [hc]
  simp only []
  rw [if_pos hne, hc2]
  simp only []
  by_cases ht : resp1.target_amount = r.amount
  · rw [if_neg (by simpa using ht), if_pos ht]
  · rw [if_pos ht, if_neg ht]

theorem C5_witness :
    (Mint.process_split_request exDhke exMint exSplitReq5).1 =
      if exResp5.target_amount = exSplitReq5.amount then .ok exResp5
      else .error .OutputOrdering :=
  C5_split_retry_reversed exDhke exMint exSplitReq5 ["s5"] exResp05 exResp5
    (by decide) (by decide) (by decide) rfl rfl (by decide) rfl

end Cashu
